import Mathlib

/-
Verification of the sale-radar repository's geographic proximity filter and
the sale-discovery batch job, as a shallow embedding in Lean.  JavaScript
numbers are idealised as real numbers; strings stay strings; `undefined`
fields become `Option`; the JS `Map` used for deduplication becomes an
insertion-ordered association list.
-/

namespace SaleRadar

/-- Earth radius in metres: `const R = 6371e3` from the front-end helpers. -/
def R : ℝ := 6371000

/-- Degrees-to-radians conversion: `const toRad = d => d * Math.PI / 180`. -/
noncomputable def toRad (d : ℝ) : ℝ := d * Real.pi / 180

/-- The four scalar bounds returned by `boundingBox`. -/
structure Box where
  latMin : ℝ
  latMax : ℝ
  lonMin : ℝ
  lonMax : ℝ

/-- Shallow embedding of `boundingBox(lat, lon, r=500)` from the front-end:
`dLat = (r/R)*180/Math.PI`, `dLon = dLat / Math.cos(toRad(lat))`. -/
noncomputable def boundingBox (lat lon : ℝ) (r : ℝ := 500) : Box :=
  { latMin := lat - r / R * 180 / Real.pi
    latMax := lat + r / R * 180 / Real.pi
    lonMin := lon - r / R * 180 / Real.pi / Real.cos (toRad lat)
    lonMax := lon + r / R * 180 / Real.pi / Real.cos (toRad lat) }

/-- Shallow embedding of `haversine(lat1, lon1, lat2, lon2)` (metres):
`a = sin(dLat/2)^2 + cos(toRad lat1)*cos(toRad lat2)*sin(dLon/2)^2`,
result `2*R*asin(sqrt a)`. -/
noncomputable def haversine (lat1 lon1 lat2 lon2 : ℝ) : ℝ :=
  2 * R * Real.arcsin (Real.sqrt
    (Real.sin (toRad (lat2 - lat1) / 2) ^ 2 +
     Real.cos (toRad lat1) * Real.cos (toRad lat2) *
       Real.sin (toRad (lon2 - lon1) / 2) ^ 2))

/-- Distance from a point to itself is zero. -/
theorem haversine_self (lat lon : ℝ) : haversine lat lon lat lon = 0 := by
  simp [haversine, toRad]

/-- C5: for all coordinate pairs a=(lat1,lon1) and b=(lat2,lon2),
haversine(a,b) equals haversine(b,a). -/
theorem c5_haversine_symm (lat1 lon1 lat2 lon2 : ℝ) :
    haversine lat1 lon1 lat2 lon2 = haversine lat2 lon2 lat1 lon1 := by
  unfold haversine
  have hs : ∀ u v : ℝ,
      Real.sin (toRad (u - v) / 2) ^ 2 = Real.sin (toRad (v - u) / 2) ^ 2 := by
    intro u v
    have h : toRad (u - v) = -toRad (v - u) := by unfold toRad; ring
    rw [h, neg_div, Real.sin_neg, neg_sq]
  rw [hs lat2 lat1, hs lon2 lon1,
    mul_comm (Real.cos (toRad lat1)) (Real.cos (toRad lat2))]

/-- A point feature of the front-end data file: `geometry.coordinates`
is `[lng, lt]`, plus the property bag the list cards read. -/
structure Feature where
  lng : ℝ
  lt : ℝ
  name : String
  headline : String
  ends : String

/-- The predicate of the filtering variant's `.filter` callback:
`lt>latMin && lt<latMax && lng>lonMin && lng<lonMax && haversine(lat,lon,lt,lng)<=10000`,
with the box from `boundingBox(lat,lon)` (default radius 500). -/
def accepts (lat lon : ℝ) (f : Feature) : Prop :=
  f.lt > (boundingBox lat lon).latMin ∧ f.lt < (boundingBox lat lon).latMax ∧
  f.lng > (boundingBox lat lon).lonMin ∧ f.lng < (boundingBox lat lon).lonMax ∧
  haversine lat lon f.lt f.lng ≤ 10000

/-- Shallow embedding of the filtering variant's
`const hits = geojson.features.filter(...)`. -/
noncomputable def hits (lat lon : ℝ) (fs : List Feature) : List Feature :=
  fs.filter (fun f => @decide (accepts lat lon f) (Classical.propDecidable _))

/-- Shallow embedding of the non-filtering variant's
`const hits = geojson.features;`. -/
def hitsAll (fs : List Feature) : List Feature := fs

/-- Membership in the filtered list unfolds to membership in the input plus
the acceptance predicate. -/
theorem mem_hits_iff (lat lon : ℝ) (fs : List Feature) (f : Feature) :
    f ∈ hits lat lon fs ↔ f ∈ fs ∧ accepts lat lon f := by
  simp [hits]

/-- The latitude half-width of the default (500 m) bounding box is below
0.01 degrees. -/
theorem dLat500_lt : (500 : ℝ) / R * 180 / Real.pi < 1 / 100 := by
  rw [div_lt_iff₀ Real.pi_pos]
  have h3 := Real.pi_gt_three
  rw [R]
  norm_num
  linarith

/-- The latitude half-width of a 10000 m bounding box exceeds 0.01 degrees. -/
theorem dLat10000_gt : (1 : ℝ) / 100 < (10000 : ℝ) / R * 180 / Real.pi := by
  rw [lt_div_iff₀ Real.pi_pos]
  have h3 := Real.pi_lt_d2
  rw [R]
  norm_num
  linarith

/-- Haversine distance from the origin to latitude 0.01 degrees is at most
10000 metres (it is about 1112 m). -/
theorem hav_origin_001_le : haversine 0 0 (1 / 100) 0 ≤ 10000 := by
  unfold haversine toRad
  have e1 : ((1 : ℝ) / 100 - 0) * Real.pi / 180 / 2 = Real.pi / 36000 := by ring
  have e2 : ((0 : ℝ) - 0) * Real.pi / 180 / 2 = 0 := by ring
  rw [e1, e2]
  have hx0 : (0 : ℝ) ≤ Real.pi / 36000 := by positivity
  have hxpi : Real.pi / 36000 ≤ Real.pi :=
    div_le_self Real.pi_pos.le (by norm_num)
  have hsin : (0 : ℝ) ≤ Real.sin (Real.pi / 36000) :=
    Real.sin_nonneg_of_nonneg_of_le_pi hx0 hxpi
  rw [Real.sin_zero]
  have hclean : Real.sin (Real.pi / 36000) ^ 2 +
      Real.cos (0 * Real.pi / 180) * Real.cos (1 / 100 * Real.pi / 180) * 0 ^ 2 =
      Real.sin (Real.pi / 36000) ^ 2 := by ring
  rw [hclean, Real.sqrt_sq_eq_abs, abs_of_nonneg hsin, Real.arcsin_sin
    (by linarith [Real.pi_pos]) (by linarith [Real.pi_pos])]
  rw [R]
  have h315 := Real.pi_lt_d2
  nlinarith [Real.pi_pos]

/-- A concrete feature at the viewer's own location. -/
noncomputable def f00 : Feature := ⟨0, 0, "Origin Store", "Sale", "2025-01-01"⟩

/-- A concrete feature 0.01 degrees of latitude (about 1112 m) north of the
origin. -/
noncomputable def f001 : Feature := ⟨0, 1 / 100, "North Store", "Sale", "2025-01-01"⟩

/-- The cosine of the converted latitude 0 is 1. -/
theorem cos_toRad_zero : Real.cos (toRad 0) = 1 := by
  simp [toRad]

/-- The viewer's own location passes the filter predicate at viewer (0,0). -/
theorem accepts_f00 : accepts 0 0 f00 := by
  have hx : (0 : ℝ) < 500 / R * 180 / Real.pi := by rw [R]; positivity
  have hhav : haversine 0 0 f00.lt f00.lng ≤ 10000 := by
    show haversine 0 0 0 0 ≤ 10000
    rw [haversine_self]; norm_num
  refine ⟨?_, ?_, ?_, ?_, hhav⟩ <;>
    simp only [accepts, boundingBox, f00, cos_toRad_zero, div_one] <;> linarith

/-- The feature 0.01 degrees north fails the filter predicate at viewer
(0,0): it lies above `latMax` of the default 500 m box. -/
theorem not_accepts_f001 : ¬ accepts 0 0 f001 := by
  intro h
  have h2 := h.2.1
  simp only [boundingBox, f001] at h2
  have := dLat500_lt
  linarith

/-- The singleton list holding the northern feature filters to the empty
list at viewer (0,0). -/
theorem hits_f001_nil : hits 0 0 [f001] = [] := by
  simp [hits, List.filter, not_accepts_f001]

/-- The origin feature is retained by the filter at viewer (0,0). -/
theorem mem_hits_f00 : f00 ∈ hits 0 0 [f00] := by
  rw [mem_hits_iff]
  exact ⟨List.mem_singleton.mpr rfl, accepts_f00⟩

/-- C1 (counterexample): at viewer (0,0) the feature `f001` lies strictly
inside the bounding box computed at radius 10000 and has haversine distance
at most 10000, yet the filtering variant rejects it — because the code
computes the box at the default radius 500, not at the call-site radius. -/
theorem c1_counterexample :
    (f001.lt > (boundingBox 0 0 10000).latMin ∧
     f001.lt < (boundingBox 0 0 10000).latMax ∧
     f001.lng > (boundingBox 0 0 10000).lonMin ∧
     f001.lng < (boundingBox 0 0 10000).lonMax) ∧
    haversine 0 0 f001.lt f001.lng ≤ 10000 ∧
    f001 ∉ hits 0 0 [f001] := by
  have hx : (0 : ℝ) < 10000 / R * 180 / Real.pi := by rw [R]; positivity
  have h10000 := dLat10000_gt
  refine ⟨⟨?_, ?_, ?_, ?_⟩, ?_, ?_⟩
  · simp only [boundingBox, f001]; linarith
  · simp only [boundingBox, f001]; linarith
  · simp only [boundingBox, f001, cos_toRad_zero, div_one]; linarith
  · simp only [boundingBox, f001, cos_toRad_zero, div_one]; linarith
  · show haversine 0 0 (1 / 100) 0 ≤ 10000
    exact hav_origin_001_le
  · rw [hits_f001_nil]
    exact List.not_mem_nil f001

/-- C1 (amended): a feature is retained by the filtering variant exactly
when it is in the input collection, lies strictly inside the bounding box
computed at the default radius 500 (not the call-site haversine radius
10000), and has haversine distance from the viewer at most 10000. -/
theorem c1_filter_characterization (lat lon : ℝ) (fs : List Feature) (f : Feature) :
    f ∈ hits lat lon fs ↔
      f ∈ fs ∧
      f.lt > (boundingBox lat lon 500).latMin ∧
      f.lt < (boundingBox lat lon 500).latMax ∧
      f.lng > (boundingBox lat lon 500).lonMin ∧
      f.lng < (boundingBox lat lon 500).lonMax ∧
      haversine lat lon f.lt f.lng ≤ 10000 := by
  rw [mem_hits_iff]
  exact Iff.rfl

/-- C2: every feature accepted by the filtering variant has haversine
distance from the viewer location at most 10000 metres. -/
theorem c2_accepted_within_radius (lat lon : ℝ) (fs : List Feature) (f : Feature)
    (h : f ∈ hits lat lon fs) : haversine lat lon f.lt f.lng ≤ 10000 :=
  ((mem_hits_iff lat lon fs f).mp h).2.2.2.2.2

/-- C2 witness: the origin feature is accepted at viewer (0,0) and its
distance is within the radius. -/
theorem c2_witness : haversine 0 0 f00.lt f00.lng ≤ 10000 :=
  c2_accepted_within_radius 0 0 [f00] f00 mem_hits_f00

/-- C7: the output of the proximity filter is a subsequence of the input
collection — accepted features keep their relative order. -/
theorem c7_hits_sublist (lat lon : ℝ) (fs : List Feature) :
    (hits lat lon fs).Sublist fs :=
  List.filter_sublist fs

/-- C8: one variant renders the whole collection unconditionally, the other
filters; at viewer (0,0) with the single northern feature they render
different sets. -/
theorem c8_variants_differ :
    (∀ fs : List Feature, hitsAll fs = fs) ∧
    ∃ lat lon : ℝ, ∃ fs : List Feature, hits lat lon fs ≠ hitsAll fs := by
  refine ⟨fun _ => rfl, 0, 0, [f001], ?_⟩
  rw [hits_f001_nil]
  intro h
  exact List.cons_ne_nil f001 [] h.symm

/-- The cosine of a converted latitude strictly between -90 and 90 degrees
is positive. -/
theorem cos_toRad_pos {lat : ℝ} (h1 : -90 < lat) (h2 : lat < 90) :
    0 < Real.cos (toRad lat) := by
  apply Real.cos_pos_of_mem_Ioo
  constructor
  · show -(Real.pi / 2) < lat * Real.pi / 180
    nlinarith [Real.pi_pos]
  · show lat * Real.pi / 180 < Real.pi / 2
    nlinarith [Real.pi_pos]

/-- The half-angle sine in the haversine formula is nonzero for a nonzero
coordinate difference of magnitude below 360 degrees. -/
theorem sin_half_toRad_ne {d : ℝ} (hd : d ≠ 0) (hlt : |d| < 360) :
    Real.sin (toRad d / 2) ≠ 0 := by
  have habs := abs_lt.mp hlt
  have hlo : -Real.pi < toRad d / 2 := by
    show -Real.pi < d * Real.pi / 180 / 2
    nlinarith [Real.pi_pos]
  have hhi : toRad d / 2 < Real.pi := by
    show d * Real.pi / 180 / 2 < Real.pi
    nlinarith [Real.pi_pos]
  intro h0
  have hx0 : toRad d / 2 = 0 := (Real.sin_eq_zero_iff_of_lt_of_lt hlo hhi).mp h0
  have : d * Real.pi = 0 := by
    have : d * Real.pi / 180 / 2 = 0 := hx0
    linarith
  rcases mul_eq_zero.mp this with h | h
  · exact hd h
  · exact Real.pi_ne_zero h

/-- C6 (counterexample): the two coordinate pairs (0,0) and (0,360) differ
in longitude, yet their haversine distance is zero. -/
theorem c6_counterexample :
    haversine 0 0 0 360 = 0 ∧ (0 : ℝ) ≠ 360 := by
  constructor
  · unfold haversine toRad
    have e1 : ((0 : ℝ) - 0) * Real.pi / 180 / 2 = 0 := by ring
    have e2 : ((360 : ℝ) - 0) * Real.pi / 180 / 2 = Real.pi := by ring
    rw [e1, e2, Real.sin_zero, Real.sin_pi]
    simp
  · norm_num

/-- C6 (amended): haversine of a pair with itself is zero, and for
coordinate pairs whose latitudes lie strictly between -90 and 90 degrees
and whose longitudes differ by less than 360 degrees, the distance between
distinct pairs is strictly positive. -/
theorem c6_zero_iff_amended :
    (∀ lat lon : ℝ, haversine lat lon lat lon = 0) ∧
    (∀ lat1 lon1 lat2 lon2 : ℝ,
      -90 < lat1 → lat1 < 90 → -90 < lat2 → lat2 < 90 →
      |lon2 - lon1| < 360 → (lat1 ≠ lat2 ∨ lon1 ≠ lon2) →
      0 < haversine lat1 lon1 lat2 lon2) := by
  refine ⟨haversine_self, ?_⟩
  intro lat1 lon1 lat2 lon2 ha1 ha2 hb1 hb2 hlon hne
  have hc1 := cos_toRad_pos ha1 ha2
  have hc2 := cos_toRad_pos hb1 hb2
  have hA0 : (0 : ℝ) ≤ Real.sin (toRad (lat2 - lat1) / 2) ^ 2 := sq_nonneg _
  have hB0 : (0 : ℝ) ≤ Real.cos (toRad lat1) * Real.cos (toRad lat2) *
      Real.sin (toRad (lon2 - lon1) / 2) ^ 2 :=
    mul_nonneg (mul_nonneg hc1.le hc2.le) (sq_nonneg _)
  have hsum : 0 < Real.sin (toRad (lat2 - lat1) / 2) ^ 2 +
      Real.cos (toRad lat1) * Real.cos (toRad lat2) *
        Real.sin (toRad (lon2 - lon1) / 2) ^ 2 := by
    rcases hne with hlat | hlo
    · have hdne : lat2 - lat1 ≠ 0 := sub_ne_zero.mpr (Ne.symm hlat)
      have hdlt : |lat2 - lat1| < 360 := by
        rw [abs_lt]; constructor <;> linarith
      have hsne := sin_half_toRad_ne hdne hdlt
      exact add_pos_of_pos_of_nonneg (pow_two_pos_of_ne_zero hsne) hB0
    · have hdne : lon2 - lon1 ≠ 0 := sub_ne_zero.mpr (Ne.symm hlo)
      have hsne := sin_half_toRad_ne hdne hlon
      exact add_pos_of_nonneg_of_pos hA0
        (mul_pos (mul_pos hc1 hc2) (pow_two_pos_of_ne_zero hsne))
  have hR : (0 : ℝ) < 2 * R := by rw [R]; norm_num
  exact mul_pos hR (Real.arcsin_pos.mpr (Real.sqrt_pos.mpr hsum))

/-- C6 witness: the amended positivity applies at (0,0) and (1,0): their
haversine distance is strictly positive. -/
theorem c6_witness : 0 < haversine 0 0 1 0 :=
  c6_zero_iff_amended.2 0 0 1 0 (by norm_num) (by norm_num) (by norm_num)
    (by norm_num) (by norm_num) (Or.inl (by norm_num))

/-- A place returned by the places-search collaborator, as consumed by the
multi-center batch job: `id`, `websiteUri` and `displayName?.text` may be
absent, and the JS falsy empty string is modelled explicitly where the code
tests truthiness. -/
structure Place where
  id : Option String
  websiteUri : Option String
  displayName : Option String
  latitude : ℝ
  longitude : ℝ

/-- The deduplication key of a place: its `id` when that is truthy
(present and nonempty), otherwise none.  Mirrors the guard `p.id && ...`. -/
def keyOf (p : Place) : Option String :=
  match p.id with
  | none => none
  | some s => if s == "" then none else some s

/-- One step of the dedup loop:
`if (p.id && !byId.has(p.id)) byId.set(p.id, p)`.  A JS `Map` keeps
insertion order, so it is modelled as an association list appended at the
end. -/
def insertPlace (m : List (String × Place)) (p : Place) : List (String × Place) :=
  match keyOf p with
  | none => m
  | some s => if m.any (fun q => q.1 == s) then m else m ++ [(s, p)]

/-- The dedup map built from the stream of places in query order. -/
def byId (ps : List Place) : List (String × Place) := ps.foldl insertPlace []

/-- Lookup in the association list modelling `byId.get`. -/
def lookupId (s : String) : List (String × Place) → Option Place
  | [] => none
  | e :: m => if e.1 == s then some e.2 else lookupId s m

/-- The values of the dedup map in insertion order, `byId.values()`. -/
def valuesList (m : List (String × Place)) : List Place := m.map Prod.snd

/-- The sale classification record the batch job expects from the
text-classification collaborator. -/
structure SaleInfo where
  sale : Bool
  headline : Option String
  discount : Option String

/-- Shallow embedding of `analyzeSite`: the network call is abstracted into
the response text, and `JSON.parse` into a `parse` oracle; the catch branch
of `try { return JSON.parse(resp.output_text.trim()); } catch { return
{ sale:false }; }` returns the no-sale record. -/
def analyzeSite (parse : String → Option SaleInfo) (outputText : String) : SaleInfo :=
  match parse outputText.trim with
  | some info => info
  | none => ⟨false, none, none⟩

/-- The display name fallback `p.displayName?.text || '(unnamed)'`. -/
def nameOf (p : Place) : String :=
  match p.displayName with
  | none => "(unnamed)"
  | some t => if t == "" then "(unnamed)" else t

/-- An output feature of the batch job's GeoJSON file. -/
structure OutFeature where
  name : String
  website : String
  headline : String
  discount : Option String
  coordinates : ℝ × ℝ

/-- The feature pushed for a store with an advertised sale:
`headline: info.headline || 'Sale'`, `discount: info.discount || null`,
`coordinates: [p.location.longitude, p.location.latitude]`. -/
def featureOf (p : Place) (url : String) (info : SaleInfo) : OutFeature :=
  { name := nameOf p
    website := url
    headline := match info.headline with
      | none => "Sale"
      | some h => if h == "" then "Sale" else h
    discount := match info.discount with
      | none => none
      | some d => if d == "" then none else some d
    coordinates := (p.longitude, p.latitude) }

/-- Shallow embedding of the classification loop over `byId.values()`:
stores without a truthy `websiteUri` are skipped, and a feature is pushed
only when the classification result's `sale` flag is set. -/
def buildFeatures (classify : String → SaleInfo) : List Place → List OutFeature
  | [] => []
  | p :: ps =>
    match p.websiteUri with
    | none => buildFeatures classify ps
    | some url =>
      if url == "" then buildFeatures classify ps
      else if (classify url).sale then
        featureOf p url (classify url) :: buildFeatures classify ps
      else buildFeatures classify ps

/-- The environment variables the batch job destructures at startup. -/
structure Env where
  GOOGLE_API_KEY : Option String
  OPENAI_API_KEY : Option String

/-- JS truthiness of an optional environment string: absent and empty are
falsy. -/
def truthyOpt : Option String → Bool
  | none => false
  | some s => !(s == "")

/-- The observable external actions of the batch job: a places query for a
center, a classification call for a URL, and the final file write. -/
inductive JobAction where
  | placesQuery (lat lng : ℝ)
  | classifyCall (url : String)
  | fileWrite

/-- The ten query centers of the multi-center batch job. -/
noncomputable def LOCATIONS : List (ℝ × ℝ) :=
  [(60.169168, 24.930956), (60.168984, 24.938293), (60.169759, 24.944180),
   (60.167177, 24.945747), (60.162641, 24.939496), (60.156900, 24.919279),
   (60.160070, 24.880104), (60.187699, 24.979896), (60.198076, 24.930052),
   (60.181829, 24.950918)]

/-- Phase 1 of the batch job: query each location in order, recording the
network actions; an HTTP failure (`if (!res.ok) throw`) aborts the run. -/
def collectPlaces (q : ℝ × ℝ → Except String (List Place)) :
    List (ℝ × ℝ) → List JobAction × Except String (List Place)
  | [] => ([], Except.ok [])
  | loc :: locs =>
    match q loc with
    | Except.error e => ([JobAction.placesQuery loc.1 loc.2], Except.error e)
    | Except.ok ps =>
      match collectPlaces q locs with
      | (acts, Except.error e) =>
        (JobAction.placesQuery loc.1 loc.2 :: acts, Except.error e)
      | (acts, Except.ok rest) =>
        (JobAction.placesQuery loc.1 loc.2 :: acts, Except.ok (ps ++ rest))

/-- The classification calls issued in phase 2, one per unique store with a
truthy website. -/
def classifyActions (vals : List Place) : List JobAction :=
  vals.filterMap (fun p =>
    match p.websiteUri with
    | none => none
    | some url => if url == "" then none else some (JobAction.classifyCall url))

/-- Shallow embedding of the whole batch job: the startup credential check
`if (!GOOGLE_API_KEY || !OPENAI_API_KEY) throw new Error('Missing API keys
in .env')` runs before anything else; then places collection,
deduplication, classification and the single file write. -/
noncomputable def runFetchSales (env : Env) (q : ℝ × ℝ → Except String (List Place))
    (classify : String → SaleInfo) :
    List JobAction × Except String (List OutFeature) :=
  if !truthyOpt env.GOOGLE_API_KEY || !truthyOpt env.OPENAI_API_KEY then
    ([], Except.error "Missing API keys in .env")
  else
    match collectPlaces q LOCATIONS with
    | (acts, Except.error e) => (acts, Except.error e)
    | (acts, Except.ok allPlaces) =>
      (acts ++ classifyActions (valuesList (byId allPlaces)) ++ [JobAction.fileWrite],
       Except.ok (buildFeatures classify (valuesList (byId allPlaces))))

/-- Lookup fails exactly when no entry carries the key. -/
theorem lookup_eq_none_iff (s : String) (m : List (String × Place)) :
    lookupId s m = none ↔ m.any (fun q => q.1 == s) = false := by
  induction m with
  | nil => simp [lookupId]
  | cons e m ih =>
    by_cases h : e.1 = s
    · simp [lookupId, h]
    · simp [lookupId, h, ih]

/-- A successful lookup is unaffected by appending entries. -/
theorem lookup_append_some (s : String) (m2 : List (String × Place)) :
    ∀ (m1 : List (String × Place)) (q : Place), lookupId s m1 = some q →
      lookupId s (m1 ++ m2) = some q
  | [], _, h => by simp [lookupId] at h
  | e :: m1, q, h => by
    by_cases he : e.1 = s
    · simp [lookupId, he] at h ⊢
      exact h
    · simp [lookupId, he] at h ⊢
      exact lookup_append_some s m2 m1 q h

/-- A failed lookup continues into the appended entries. -/
theorem lookup_append_none (s : String) (m2 : List (String × Place)) :
    ∀ m1 : List (String × Place), lookupId s m1 = none →
      lookupId s (m1 ++ m2) = lookupId s m2
  | [], _ => by simp
  | e :: m1, h => by
    by_cases he : e.1 = s
    · simp [lookupId, he] at h
    · simp [lookupId, he] at h ⊢
      exact lookup_append_none s m2 m1 h

/-- Once a key is bound in the dedup map, later insertions never change the
binding. -/
theorem lookup_foldl_some (s : String) (q : Place) :
    ∀ (ps : List Place) (m : List (String × Place)), lookupId s m = some q →
      lookupId s (ps.foldl insertPlace m) = some q
  | [], _, h => h
  | p :: ps, m, h => by
    have hi : lookupId s (insertPlace m p) = some q := by
      unfold insertPlace
      cases hk : keyOf p with
      | none => exact h
      | some s' =>
        cases ha : m.any (fun e => e.1 == s') with
        | true => simpa [ha] using h
        | false =>
          simp only [ha, Bool.false_eq_true, if_false]
          exact lookup_append_some s [(s', p)] m q h
    rw [List.foldl_cons]
    exact lookup_foldl_some s q ps (insertPlace m p) hi

/-- For a key not yet bound, folding the insertion step binds it to the
first stream element carrying it. -/
theorem lookup_foldl_none (s : String) :
    ∀ (ps : List Place) (m : List (String × Place)), lookupId s m = none →
      lookupId s (ps.foldl insertPlace m) =
        ps.find? (fun p => keyOf p == some s)
  | [], m, h => by simpa using h
  | p :: ps, m, h => by
    rw [List.foldl_cons]
    cases hk : keyOf p with
    | none =>
      have hins : insertPlace m p = m := by unfold insertPlace; rw [hk]
      rw [hins, lookup_foldl_none s ps m h,
        List.find?_cons_of_neg ps (by simp [hk])]
    | some s' =>
      by_cases hss : s' = s
      · subst hss
        have hany : m.any (fun e => e.1 == s') = false :=
          (lookup_eq_none_iff s' m).mp h
        have hins : insertPlace m p = m ++ [(s', p)] := by
          unfold insertPlace
          rw [hk]
          simp [hany]
        have hlk : lookupId s' (insertPlace m p) = some p := by
          rw [hins, lookup_append_none s' [(s', p)] m h]
          simp [lookupId]
        rw [lookup_foldl_some s' p ps (insertPlace m p) hlk,
          List.find?_cons_of_pos ps (by simp [hk])]
      · have hlk : lookupId s (insertPlace m p) = none := by
          unfold insertPlace
          rw [hk]
          cases ha : m.any (fun e => e.1 == s') with
          | true => simpa [ha] using h
          | false =>
            simp only [ha, Bool.false_eq_true, if_false]
            rw [lookup_append_none s [(s', p)] m h]
            simp [lookupId, hss]
        rw [lookup_foldl_none s ps (insertPlace m p) hlk,
          List.find?_cons_of_neg ps (by simp [hk, hss])]

/-- Folding the insertion step preserves distinctness of the stored keys. -/
theorem keys_nodup_foldl :
    ∀ (ps : List Place) (m : List (String × Place)),
      (m.map Prod.fst).Nodup → ((ps.foldl insertPlace m).map Prod.fst).Nodup
  | [], _, h => h
  | p :: ps, m, h => by
    rw [List.foldl_cons]
    apply keys_nodup_foldl ps
    unfold insertPlace
    cases hk : keyOf p with
    | none => exact h
    | some s' =>
      cases ha : m.any (fun e => e.1 == s') with
      | true => simpa [ha] using h
      | false =>
        simp only [ha, Bool.false_eq_true, if_false, List.map_append]
        refine h.append (by simp) ?_
        intro a ham has
        have ha' : a = s' := by simpa using has
        subst ha'
        rcases List.mem_map.mp ham with ⟨e, hem, he⟩
        have := List.any_eq_false.mp (by exact ha) e hem
        simp [he] at this

/-- C3: the dedup map built from the concatenated query-center result sets
has pairwise-distinct keys, and each key is bound to the place object of
its first occurrence in query order. -/
theorem c3_dedup_first_wins (css : List (List Place)) :
    ((byId css.flatten).map Prod.fst).Nodup ∧
    ∀ s : String, lookupId s (byId css.flatten) =
      css.flatten.find? (fun p => keyOf p == some s) := by
  constructor
  · exact keys_nodup_foldl css.flatten [] (by simp)
  · intro s
    exact lookup_foldl_none s css.flatten [] rfl

/-- Every output feature of the classification loop comes from a place of
the scanned list with a truthy website whose classification flagged a
sale. -/
theorem mem_buildFeatures (classify : String → SaleInfo) :
    ∀ (l : List Place) (f : OutFeature), f ∈ buildFeatures classify l →
      ∃ q ∈ l, ∃ url : String, q.websiteUri = some url ∧
        (classify url).sale = true ∧ f = featureOf q url (classify url)
  | [], f, h => by simp [buildFeatures] at h
  | p :: l, f, h => by
    have lift : ∀ g : OutFeature, g ∈ buildFeatures classify l →
        ∃ q ∈ p :: l, ∃ url : String, q.websiteUri = some url ∧
          (classify url).sale = true ∧ g = featureOf q url (classify url) := by
      intro g hg
      rcases mem_buildFeatures classify l g hg with ⟨q, hq, url, h1, h2, h3⟩
      exact ⟨q, List.mem_cons_of_mem p hq, url, h1, h2, h3⟩
    unfold buildFeatures at h
    cases hw : p.websiteUri with
    | none =>
      rw [hw] at h
      exact lift f h
    | some url =>
      rw [hw] at h
      by_cases hu : url = ""
      · simp only [hu, beq_self_eq_true, if_true] at h
        exact lift f h
      · have hu' : (url == "") = false := by simpa using hu
        simp only [hu', Bool.false_eq_true, if_false] at h
        cases hs : (classify url).sale with
        | false =>
          simp only [hs, Bool.false_eq_true, if_false] at h
          exact lift f h
        | true =>
          simp only [hs, if_true] at h
          rcases List.mem_cons.mp h with hf | hf
          · exact ⟨p, List.mem_cons_self p l, url, hw, hs, hf⟩
          · exact lift f hf

/-- Every value stored in the dedup map has a truthy id. -/
theorem values_key :
    ∀ (ps : List Place) (m : List (String × Place)),
      (∀ e ∈ m, ∃ s : String, keyOf e.2 = some s) →
      ∀ q ∈ valuesList (ps.foldl insertPlace m), ∃ s : String, keyOf q = some s
  | [], m, hm, q, hq => by
    rcases List.mem_map.mp hq with ⟨e, hem, he⟩
    rcases hm e hem with ⟨s, hs⟩
    exact ⟨s, he ▸ hs⟩
  | p :: ps, m, hm, q, hq => by
    rw [List.foldl_cons] at hq
    refine values_key ps (insertPlace m p) ?_ q hq
    intro e hem
    unfold insertPlace at hem
    cases hk : keyOf p with
    | none =>
      rw [hk] at hem
      exact hm e hem
    | some s' =>
      rw [hk] at hem
      cases ha : m.any (fun q => q.1 == s') with
      | true => simp only [ha, if_true] at hem; exact hm e hem
      | false =>
        simp only [ha, Bool.false_eq_true, if_false, List.mem_append,
          List.mem_singleton] at hem
        rcases hem with hem | hem
        · exact hm e hem
        · refine ⟨s', ?_⟩
          rw [hem]
          exact hk

/-- C4: when the classifier's response text for a URL is not parseable as
JSON, `analyzeSite` yields the no-sale record and no output feature of the
batch's classification loop carries that URL as its website. -/
theorem c4_unparseable_excluded (parse : String → Option SaleInfo)
    (respOf : String → String) (ps : List Place) (url : String)
    (h : parse ((respOf url).trim) = none) :
    analyzeSite parse (respOf url) = ⟨false, none, none⟩ ∧
    ∀ f ∈ buildFeatures (fun u => analyzeSite parse (respOf u)) ps,
      f.website ≠ url := by
  have hno : analyzeSite parse (respOf url) = ⟨false, none, none⟩ := by
    unfold analyzeSite
    rw [h]
  refine ⟨hno, ?_⟩
  intro f hf hurl
  rcases mem_buildFeatures (fun u => analyzeSite parse (respOf u)) ps f hf with
    ⟨q, _, url', _, hsale, hfeat⟩
  have hwebsite : f.website = url' := by rw [hfeat]; rfl
  rw [hurl] at hwebsite
  rw [← hwebsite] at hsale
  rw [hno] at hsale
  simp at hsale

/-- C4 witness: with a parser that always fails and an empty response, the
no-sale record comes back and the empty scan excludes the URL. -/
theorem c4_witness :
    analyzeSite (fun _ => none) ((fun _ : String => "") "x") = ⟨false, none, none⟩ ∧
    ∀ f ∈ buildFeatures (fun u => analyzeSite (fun _ => none) ((fun _ : String => "") u)) [],
      f.website ≠ "x" :=
  c4_unparseable_excluded (fun _ => none) (fun _ => "") [] "x" rfl

/-- C9: with either credential absent, the batch job errors at startup with
no places query, no classification call and no file write. -/
theorem c9_missing_keys_abort (env : Env)
    (h : env.GOOGLE_API_KEY = none ∨ env.OPENAI_API_KEY = none)
    (q : ℝ × ℝ → Except String (List Place)) (classify : String → SaleInfo) :
    runFetchSales env q classify = ([], Except.error "Missing API keys in .env") := by
  unfold runFetchSales
  rcases h with h | h <;> rw [h] <;> simp [truthyOpt]

/-- C9 witness: the wholly-empty environment aborts with the startup error
and an empty action trace. -/
theorem c9_witness :
    runFetchSales ⟨none, none⟩ (fun _ => Except.ok []) (fun _ => ⟨false, none, none⟩) =
      ([], Except.error "Missing API keys in .env") :=
  c9_missing_keys_abort ⟨none, none⟩ (Or.inl rfl) (fun _ => Except.ok [])
    (fun _ => ⟨false, none, none⟩)

/-- C10: a place with a missing or falsy id never enters the dedup map, so
it is not scanned by the classification loop, and every output feature
originates from a deduplicated place different from it. -/
theorem c10_falsy_id_dropped (ps : List Place) (p : Place)
    (h : keyOf p = none) (classify : String → SaleInfo) :
    p ∉ valuesList (byId ps) ∧
    ∀ f ∈ buildFeatures classify (valuesList (byId ps)),
      ∃ q ∈ valuesList (byId ps), q ≠ p ∧ ∃ url : String,
        q.websiteUri = some url ∧ f = featureOf q url (classify url) := by
  have hkeys : ∀ q ∈ valuesList (byId ps), ∃ s : String, keyOf q = some s :=
    values_key ps [] (by simp)
  constructor
  · intro hp
    rcases hkeys p hp with ⟨s, hs⟩
    rw [h] at hs
    exact Option.noConfusion hs
  · intro f hf
    rcases mem_buildFeatures classify (valuesList (byId ps)) f hf with
      ⟨q, hq, url, h1, _, h3⟩
    refine ⟨q, hq, ?_, url, h1, h3⟩
    intro hqp
    rcases hkeys q hq with ⟨s, hs⟩
    rw [hqp, h] at hs
    exact Option.noConfusion hs

/-- A concrete place with no id but a website: used to witness C10. -/
noncomputable def pNoId : Place := ⟨none, some "https://shop.example", some "Shop", 60, 24⟩

/-- C10 witness: the id-less place with a website and an always-sale
classifier is still dropped from the dedup map and the output. -/
theorem c10_witness :
    pNoId ∉ valuesList (byId [pNoId]) ∧
    ∀ f ∈ buildFeatures (fun _ => ⟨true, none, none⟩) (valuesList (byId [pNoId])),
      ∃ q ∈ valuesList (byId [pNoId]), q ≠ pNoId ∧ ∃ url : String,
        q.websiteUri = some url ∧
        f = featureOf q url ((fun _ : String => (⟨true, none, none⟩ : SaleInfo)) url) :=
  c10_falsy_id_dropped [pNoId] pNoId rfl (fun _ => ⟨true, none, none⟩)

end SaleRadar
